import Mathlib

/-!
Verification of `findmy/http.py`: a small asynchronous HTTP helper consisting of
a response wrapper (`HttpResponse`, with `ok` / `text` / `json` / `plist`
views), a plist-decoding helper (`decode_plist`), and a session manager
(`HttpSession`, with `_ensure_session` / `close` / `request` / `get` / `post`).

Embedding conventions:
- Python `bytes` values are `List Nat` (each element a byte value).
- Python exceptions are the `PyErr` error type together with `Except`.
- The standard-library decoders used by the source (`bytes.decode("utf-8")`,
  `json.loads`, `plistlib.loads`) are modelled by executable Lean functions on
  the fragment of their input language the program exercises; every model is a
  total function, with failure as `none` / `Except.error`.
- The asynchronous session manager is modelled by explicit state passing: each
  coroutine method becomes a function from the manager state (plus a transport
  oracle standing for the underlying `aiohttp` client) to a result and the new
  state.
-/

/-- Errors of the Python standard library that the module can surface:
`UnicodeDecodeError` from `bytes.decode`, `json.JSONDecodeError` from
`json.loads`, a plist parse error from `plistlib.loads`, `TypeError`
raised by `HttpResponse.plist`, and `IndexError` from tuple indexing. -/
inductive PyErr where
  | unicodeDecodeError : PyErr
  | jsonDecodeError : PyErr
  | plistParseError : PyErr
  | typeError : PyErr
  | indexError : PyErr
deriving DecidableEq, Repr

/-- Byte string literal helper: the bytes of an ASCII string (Python `b"..."`). -/
def asciiBytes (s : String) : List Nat :=
  s.data.map Char.toNat

/-- UTF-8 encoding of a single Unicode scalar value, as Python's `str.encode`
produces it (1 to 4 bytes depending on the codepoint). -/
def utf8EncodeChar (c : Char) : List Nat :=
  let n := c.toNat
  if n < 128 then [n]
  else if n < 2048 then [192 + n / 64, 128 + n % 64]
  else if n < 65536 then [224 + n / 4096, 128 + n / 64 % 64, 128 + n % 64]
  else [240 + n / 262144, 128 + n / 4096 % 64, 128 + n / 64 % 64, 128 + n % 64]

/-- UTF-8 encoding of a character sequence. -/
def utf8EncodeList : List Char → List Nat
  | [] => []
  | c :: cs => utf8EncodeChar c ++ utf8EncodeList cs

/-- UTF-8 encoding of a string (Python `s.encode("utf-8")`). -/
def utf8Encode (s : String) : List Nat :=
  utf8EncodeList s.data

mutual

/-- Strict UTF-8 decoding of a byte sequence, as Python's
`bytes.decode("utf-8")` performs it: dispatch on the lead byte, rejecting
stray continuation bytes and lead bytes that can only start overlong
encodings (0xC0–0xC1) or codepoints above `0x10FFFF` (0xF5–0xFF).
Returns `none` exactly when Python raises `UnicodeDecodeError`. -/
def utf8DecodeList : List Nat → Option (List Char)
  | [] => some []
  | b0 :: rest =>
    if b0 < 128 then (utf8DecodeList rest).map (fun cs => Char.ofNat b0 :: cs)
    else if b0 < 194 then none
    else if b0 < 224 then utf8DecodeTwo b0 rest
    else if b0 < 240 then utf8DecodeThree b0 rest
    else if b0 < 245 then utf8DecodeFour b0 rest
    else none

/-- Continuation of a two-byte sequence after lead byte `b0` (0xC2–0xDF). -/
def utf8DecodeTwo (b0 : Nat) : List Nat → Option (List Char)
  | b1 :: rest2 =>
    if 128 ≤ b1 ∧ b1 < 192 then
      (utf8DecodeList rest2).map (fun cs => Char.ofNat ((b0 - 192) * 64 + (b1 - 128)) :: cs)
    else none
  | [] => none

/-- Continuation of a three-byte sequence after lead byte `b0` (0xE0–0xEF);
the restricted ranges of the first continuation byte after 0xE0 and 0xED
exclude overlong encodings and surrogate codepoints respectively. -/
def utf8DecodeThree (b0 : Nat) : List Nat → Option (List Char)
  | b1 :: b2 :: rest3 =>
    if (if b0 = 224 then 160 ≤ b1 ∧ b1 < 192
        else if b0 = 237 then 128 ≤ b1 ∧ b1 < 160
        else 128 ≤ b1 ∧ b1 < 192) ∧ (128 ≤ b2 ∧ b2 < 192) then
      (utf8DecodeList rest3).map
        (fun cs => Char.ofNat ((b0 - 224) * 4096 + (b1 - 128) * 64 + (b2 - 128)) :: cs)
    else none
  | _ => none

/-- Continuation of a four-byte sequence after lead byte `b0` (0xF0–0xF4);
the restricted ranges of the first continuation byte after 0xF0 and 0xF4
exclude overlong encodings and codepoints above `0x10FFFF` respectively. -/
def utf8DecodeFour (b0 : Nat) : List Nat → Option (List Char)
  | b1 :: b2 :: b3 :: rest4 =>
    if (if b0 = 240 then 144 ≤ b1 ∧ b1 < 192
        else if b0 = 244 then 128 ≤ b1 ∧ b1 < 144
        else 128 ≤ b1 ∧ b1 < 192) ∧ (128 ≤ b2 ∧ b2 < 192) ∧ (128 ≤ b3 ∧ b3 < 192) then
      (utf8DecodeList rest4).map
        (fun cs =>
          Char.ofNat ((b0 - 240) * 262144 + (b1 - 128) * 4096 + (b2 - 128) * 64 + (b3 - 128)) :: cs)
    else none
  | _ => none

end

/-- Response of a request made by `HttpSession` (`findmy/http.py`, class
`HttpResponse`): an immutable pair of the HTTP status code (`_status_code`,
exposed through the `status_code` property) and the raw body bytes
(`_content`). -/
structure HttpResponse where
  status_code : Int
  content : List Nat
deriving DecidableEq, Repr

/-- Source: `HttpResponse.ok` — `str(self._status_code).startswith("2")`:
whether the decimal string representation of the status code starts with the
character `2`.  `Int.repr` is Python's `str` on integers; `startswith` on a
one-character pattern is prefix testing on the character sequence. -/
def HttpResponse.ok (r : HttpResponse) : Bool :=
  List.isPrefixOf "2".data (Int.repr r.status_code).data

/-- Source: `HttpResponse.text` — `self._content.decode("utf-8")`;
fails with `UnicodeDecodeError` on invalid UTF-8. -/
def HttpResponse.text (r : HttpResponse) : Except PyErr String :=
  match utf8DecodeList r.content with
  | some cs => .ok ⟨cs⟩
  | none => .error .unicodeDecodeError

/-- JSON values, the codomain of Python's `json.loads`.  Numbers are modelled
as integers: the program under verification never decodes fractional or
exponent-form numbers. -/
inductive Json where
  | null : Json
  | bool : Bool → Json
  | num : Int → Json
  | str : String → Json
  | arr : List Json → Json
  | obj : List (String × Json) → Json
deriving Repr

/-- Whether a JSON value is a mapping (a Python `dict`). -/
def Json.isObj : Json → Bool
  | .obj _ => true
  | _ => false

/-- Drop leading JSON whitespace (space, tab, newline, carriage return). -/
def skipWs : List Char → List Char
  | c :: cs => if c = ' ' ∨ c = '\t' ∨ c = '\n' ∨ c = '\r' then skipWs cs else c :: cs
  | [] => []

/-- Parse the remainder of a JSON string literal after the opening quote,
up to and including the closing quote.  Escape sequences are outside the
modelled fragment and are rejected. -/
def parseStringRest : List Char → Option (List Char × List Char)
  | [] => none
  | c :: cs =>
    if c = '\"' then some ([], cs)
    else if c = '\\' then none
    else (parseStringRest cs).map (fun p => (c :: p.1, p.2))

/-- Take the maximal run of decimal digits at the head of the input. -/
def takeDigits : List Char → (List Char × List Char)
  | [] => ([], [])
  | c :: cs =>
    if c.isDigit then
      let p := takeDigits cs
      (c :: p.1, p.2)
    else ([], c :: cs)

/-- Numeric value of a run of decimal digits (most significant first). -/
def digitsToNat (acc : Nat) : List Char → Nat
  | [] => acc
  | c :: cs => digitsToNat (acc * 10 + (c.toNat - 48)) cs

/-- After an integer literal, a fractional point or exponent marker would start
a number form outside the modelled fragment. -/
def jsonIntBoundary : List Char → Bool
  | [] => true
  | c :: _ => decide (¬(c = '.' ∨ c = 'e' ∨ c = 'E'))

mutual

/-- Model of Python's `json.loads` value grammar (fuel-based recursive
descent): objects, arrays, strings without escapes, integer numbers,
`true` / `false` / `null`.  Returns the parsed value and the unconsumed
input, or `none` on a syntax error. -/
def parseJsonValue : Nat → List Char → Option (Json × List Char)
  | 0, _ => none
  | fuel + 1, cs =>
    match skipWs cs with
    | [] => none
    | '\x7b' :: cs1 =>
      (match skipWs cs1 with
       | '\x7d' :: rest => some (.obj [], rest)
       | cs2 => (parseJsonMembers fuel cs2).map (fun p => (.obj p.1, p.2)))
    | '[' :: cs1 =>
      (match skipWs cs1 with
       | ']' :: rest => some (.arr [], rest)
       | cs2 => (parseJsonItems fuel cs2).map (fun p => (.arr p.1, p.2)))
    | '\"' :: cs1 =>
      (parseStringRest cs1).map (fun p => (.str (String.mk p.1), p.2))
    | 't' :: 'r' :: 'u' :: 'e' :: rest => some (.bool true, rest)
    | 'f' :: 'a' :: 'l' :: 's' :: 'e' :: rest => some (.bool false, rest)
    | 'n' :: 'u' :: 'l' :: 'l' :: rest => some (.null, rest)
    | '-' :: cs1 =>
      (match takeDigits cs1 with
       | ([], _) => none
       | (ds, rest) =>
         if jsonIntBoundary rest then some (.num (-(digitsToNat 0 ds : Int)), rest) else none)
    | c :: cs1 =>
      if c.isDigit then
        (match takeDigits (c :: cs1) with
         | (ds, rest) =>
           if jsonIntBoundary rest then some (.num (digitsToNat 0 ds : Int), rest) else none)
      else none

/-- Parse one or more `"key": value` members of a JSON object, up to and
including the closing brace. -/
def parseJsonMembers : Nat → List Char → Option (List (String × Json) × List Char)
  | 0, _ => none
  | fuel + 1, cs =>
    match skipWs cs with
    | '\"' :: cs1 =>
      (match parseStringRest cs1 with
       | none => none
       | some (key, cs2) =>
         match skipWs cs2 with
         | ':' :: cs3 =>
           (match parseJsonValue fuel cs3 with
            | none => none
            | some (v, cs4) =>
              match skipWs cs4 with
              | ',' :: cs5 =>
                (parseJsonMembers fuel cs5).map (fun p => ((String.mk key, v) :: p.1, p.2))
              | '\x7d' :: cs5 => some ([(String.mk key, v)], cs5)
              | _ => none)
         | _ => none)
    | _ => none

/-- Parse one or more elements of a JSON array, up to and including the
closing bracket. -/
def parseJsonItems : Nat → List Char → Option (List Json × List Char)
  | 0, _ => none
  | fuel + 1, cs =>
    match parseJsonValue fuel cs with
    | none => none
    | some (v, cs1) =>
      match skipWs cs1 with
      | ',' :: cs2 => (parseJsonItems fuel cs2).map (fun p => (v :: p.1, p.2))
      | ']' :: cs2 => some ([v], cs2)
      | _ => none

end

/-- Model of Python's `json.loads` on a string: parse one JSON value and
require only whitespace to remain.  `none` branches surface as
`json.JSONDecodeError`. -/
def jsonLoads (s : String) : Except PyErr Json :=
  match parseJsonValue (s.data.length + 1) s.data with
  | some (v, rest) =>
    match skipWs rest with
    | [] => .ok v
    | _ :: _ => .error .jsonDecodeError
  | none => .error .jsonDecodeError

/-- Source: `HttpResponse.json` — `json.loads(self.text())`: decode the body
as UTF-8 text, then JSON-parse it; whatever top-level value the JSON decoder
produces is returned unchanged. -/
def HttpResponse.json (r : HttpResponse) : Except PyErr Json := do
  let t ← r.text
  jsonLoads t

/-- Values of an Apple XML property list, the codomain of Python's
`plistlib.loads` restricted to the element kinds the modelled fragment
covers: dictionaries, arrays, strings and integers. -/
inductive PlistValue where
  | dict : List (String × PlistValue) → PlistValue
  | array : List PlistValue → PlistValue
  | string : String → PlistValue
  | integer : Int → PlistValue
deriving Repr

/-- Whether a plist value is a mapping (a Python `dict`). -/
def PlistValue.isDict : PlistValue → Bool
  | .dict _ => true
  | _ => false

/-- Drop leading XML whitespace bytes (space, tab, newline, carriage return). -/
def dropBytesWs : List Nat → List Nat
  | b :: bs => if b = 32 ∨ b = 9 ∨ b = 10 ∨ b = 13 then dropBytesWs bs else b :: bs
  | [] => []

/-- Drop bytes up to and including the first occurrence of `stop`;
`none` if `stop` never occurs. -/
def dropThroughByte (stop : Nat) : List Nat → Option (List Nat)
  | [] => none
  | b :: bs => if b = stop then some bs else dropThroughByte stop bs

/-- Split at the first occurrence of `stop`: the bytes before it, and the
remainder starting at `stop` itself (or empty if it never occurs). -/
def takeUntilByte (stop : Nat) : List Nat → (List Nat × List Nat)
  | [] => ([], [])
  | b :: bs =>
    if b = stop then ([], b :: bs)
    else
      let p := takeUntilByte stop bs
      (b :: p.1, p.2)

/-- Require `pre` to be a prefix of `bs` and drop it. -/
def expectBytes (pre bs : List Nat) : Option (List Nat) :=
  if List.isPrefixOf pre bs then some (bs.drop pre.length) else none

/-- View ASCII element content bytes as a string. -/
def stringOfBytes (bs : List Nat) : String :=
  String.mk (bs.map Char.ofNat)

/-- Parse the decimal (optionally sign-prefixed) content of an `integer`
element. -/
def parsePlistInt (bs : List Nat) : Option Int :=
  match bs.map Char.ofNat with
  | '-' :: ds =>
    if ds ≠ [] ∧ ds.all Char.isDigit then some (-(digitsToNat 0 ds : Int)) else none
  | ds =>
    if ds ≠ [] ∧ ds.all Char.isDigit then some ((digitsToNat 0 ds : Int)) else none

mutual

/-- Model of the XML plist value grammar accepted by Python's
`plistlib.loads` on the fragment the module exercises: `dict`, `array`,
`string` and `integer` elements in explicit open/close form, separated by
whitespace, with ASCII text content and no entity references. -/
def parsePlistValue : Nat → List Nat → Option (PlistValue × List Nat)
  | 0, _ => none
  | fuel + 1, bs =>
    let bs := dropBytesWs bs
    if List.isPrefixOf (asciiBytes "<dict>") bs then
      (parsePlistEntries fuel (bs.drop 6)).map (fun p => (.dict p.1, p.2))
    else if List.isPrefixOf (asciiBytes "<array>") bs then
      (parsePlistItems fuel (bs.drop 7)).map (fun p => (.array p.1, p.2))
    else if List.isPrefixOf (asciiBytes "<string>") bs then
      (match takeUntilByte 60 (bs.drop 8) with
       | (content, rest) =>
         (expectBytes (asciiBytes "</string>") rest).map
           (fun r => (.string (stringOfBytes content), r)))
    else if List.isPrefixOf (asciiBytes "<integer>") bs then
      (match takeUntilByte 60 (bs.drop 9) with
       | (content, rest) =>
         match parsePlistInt content, expectBytes (asciiBytes "</integer>") rest with
         | some n, some r => some (.integer n, r)
         | _, _ => none)
    else none

/-- Parse the `<key>…</key> value` entries of a `dict` element, up to and
including the closing `</dict>` tag. -/
def parsePlistEntries : Nat → List Nat → Option (List (String × PlistValue) × List Nat)
  | 0, _ => none
  | fuel + 1, bs =>
    let bs := dropBytesWs bs
    if List.isPrefixOf (asciiBytes "</dict>") bs then some ([], bs.drop 7)
    else if List.isPrefixOf (asciiBytes "<key>") bs then
      (match takeUntilByte 60 (bs.drop 5) with
       | (content, rest) =>
         match expectBytes (asciiBytes "</key>") rest with
         | none => none
         | some rest2 =>
           match parsePlistValue fuel rest2 with
           | none => none
           | some (v, rest3) =>
             (parsePlistEntries fuel rest3).map
               (fun p => ((stringOfBytes content, v) :: p.1, p.2)))
    else none

/-- Parse the elements of an `array` element, up to and including the closing
`</array>` tag. -/
def parsePlistItems : Nat → List Nat → Option (List PlistValue × List Nat)
  | 0, _ => none
  | fuel + 1, bs =>
    let bs := dropBytesWs bs
    if List.isPrefixOf (asciiBytes "</array>") bs then some ([], bs.drop 8)
    else
      match parsePlistValue fuel bs with
      | none => none
      | some (v, rest) => (parsePlistItems fuel rest).map (fun p => (v :: p.1, p.2))

end

/-- Model of Python's `plistlib.loads` on XML property lists: skip an optional
XML declaration (`<?xml … ?>`) and an optional document type declaration
(`<!DOCTYPE … >`), then parse a `<plist …>` element containing exactly one
value, closed by `</plist>`, with nothing but whitespace after it.  Any
failure stands for the parse error `plistlib` raises through its XML parser. -/
def plistlib_loads (data : List Nat) : Except PyErr PlistValue :=
  let step : Option (List Nat) := do
    let bs := dropBytesWs data
    let bs ← if List.isPrefixOf (asciiBytes "<?xml") bs then dropThroughByte 62 bs else pure bs
    let bs := dropBytesWs bs
    let bs ←
      if List.isPrefixOf (asciiBytes "<!DOCTYPE") bs then dropThroughByte 62 bs else pure bs
    let bs := dropBytesWs bs
    let bs ← expectBytes (asciiBytes "<plist") bs
    dropThroughByte 62 bs
  match step with
  | none => .error .plistParseError
  | some body =>
    match parsePlistValue (body.length + 1) body with
    | none => .error .plistParseError
    | some (v, rest) =>
      match expectBytes (asciiBytes "</plist>") (dropBytesWs rest) with
      | none => .error .plistParseError
      | some tail => if dropBytesWs tail = [] then .ok v else .error .plistParseError

/-- Source: the module-level constant `plist_header` of `decode_plist` — the
fixed XML declaration plus property-list DOCTYPE header. -/
def plist_header : List Nat :=
  asciiBytes "<?xml version=\x271.0\x27 encoding=\x27UTF-8\x27?>" ++
    asciiBytes
      "<!DOCTYPE plist PUBLIC \x27-//Apple//DTD PLIST 1.0//EN\x27 \x27http://www.apple.com/DTDs/PropertyList-1.0.dtd\x27>"

/-- Source: `decode_plist(data)` — if `data` does not start with `b"<?xml"`,
prepend `plist_header`; then `plistlib.loads` the result. -/
def decode_plist (data : List Nat) : Except PyErr PlistValue :=
  let data' := if ¬List.isPrefixOf (asciiBytes "<?xml") data then plist_header ++ data else data
  plistlib_loads data'

/-- Source: `HttpResponse.plist` — `decode_plist(self._content)`, then raise
`TypeError` unless the decoded value is a `dict`. -/
def HttpResponse.plist (r : HttpResponse) : Except PyErr PlistValue :=
  match decode_plist r.content with
  | .error e => .error e
  | .ok data => if data.isDict then .ok data else .error .typeError

/-- Configuration object `aiohttp.ClientTimeout(total=…)`. -/
structure ClientTimeout where
  total : Nat
deriving DecidableEq, Repr

/-- Handle of an underlying `aiohttp.ClientSession`, carrying the
configuration it was created with. -/
structure ClientSession where
  timeout : ClientTimeout
deriving DecidableEq, Repr

/-- Credentials object `aiohttp.BasicAuth(login, password)`. -/
structure BasicAuth where
  login : String
  password : String
deriving DecidableEq, Repr

/-- State of an `HttpSession` object (`findmy/http.py`, class `HttpSession`):
the `_session` attribute, which holds the lazily created client-session handle
or `None`.  The `createdCount` / `closedCount` fields are ghost
instrumentation, absent from the source: they count handle creations and
closures so that the resource invariant "at most one live handle" can be
stated. -/
structure HttpSession where
  session : Option ClientSession
  createdCount : Nat
  closedCount : Nat
deriving DecidableEq, Repr

/-- Source: `HttpSession.__init__` — `self._session = None`. -/
def HttpSession.init : HttpSession :=
  { session := none, createdCount := 0, closedCount := 0 }

/-- Count of underlying session handles currently alive (ghost view). -/
def HttpSession.liveHandles (st : HttpSession) : Nat :=
  st.createdCount - st.closedCount

/-- Source: `HttpSession._ensure_session` — if `self._session is None`,
create `ClientSession(timeout=ClientTimeout(total=5))`; otherwise do
nothing. -/
def HttpSession.ensure_session (st : HttpSession) : HttpSession :=
  match st.session with
  | some _ => st
  | none =>
    { session := some { timeout := { total := 5 } },
      createdCount := st.createdCount + 1,
      closedCount := st.closedCount }

/-- Source: `HttpSession.close` — if `self._session is not None`, close the
underlying session and set `self._session = None`; otherwise do nothing. -/
def HttpSession.close (st : HttpSession) : HttpSession :=
  match st.session with
  | some _ =>
    { session := none,
      createdCount := st.createdCount,
      closedCount := st.closedCount + 1 }
  | none => st

/-- One invocation of the underlying transport,
`aiohttp.ClientSession.request`: the positional method and url, the `auth`
and `ssl` keyword arguments the module supplies, and the caller's extra
keyword arguments passed through opaquely. -/
structure TransportCall where
  method : String
  url : String
  auth : Option BasicAuth
  ssl : Bool
  kwargs : List (String × String)
deriving DecidableEq, Repr

/-- A transport oracle: what the network returns for a given call — the final
status code and the fully read body bytes. -/
def Transport : Type :=
  TransportCall → Int × List Nat

/-- Source: the auth-translation step of `HttpSession.request` —
`BasicAuth(auth[0], auth[1])` when `auth is not None`.  Python tuple indexing
raises `IndexError` when the tuple is too short; `auth[0]` is evaluated before
`auth[1]`. -/
def translateAuth : Option (List String) → Except PyErr (Option BasicAuth)
  | none => .ok none
  | some a =>
    match a.get? 0 with
    | none => .error .indexError
    | some u =>
      match a.get? 1 with
      | none => .error .indexError
      | some p => .ok (some { login := u, password := p })

/-- Source: `HttpSession.request(method, url, auth=None, **kwargs)` —
`await self._ensure_session()`, translate `auth`, then issue the transport
request with `ssl=False` and wrap the status and fully read body in an
`HttpResponse`.  The state component of the result is the state after the
call: the session created by `_ensure_session` persists even when the
auth-translation step raises. -/
def HttpSession.request (t : Transport) (st : HttpSession) (method url : String)
    (auth : Option (List String) := none) (kwargs : List (String × String) := []) :
    HttpSession × Except PyErr HttpResponse :=
  let st := st.ensure_session
  match translateAuth auth with
  | .error e => (st, .error e)
  | .ok basic_auth =>
    let reply := t { method := method, url := url, auth := basic_auth, ssl := false,
                     kwargs := kwargs }
    (st, .ok { status_code := reply.1, content := reply.2 })

/-- Source: `HttpSession.get(url, **kwargs)` —
alias for `request("GET", url, **kwargs)`.  A caller-supplied `auth` keyword
travels through `kwargs` to `request`'s `auth` parameter, so it is forwarded
explicitly here. -/
def HttpSession.get (t : Transport) (st : HttpSession) (url : String)
    (auth : Option (List String) := none) (kwargs : List (String × String) := []) :
    HttpSession × Except PyErr HttpResponse :=
  st.request t "GET" url auth kwargs

/-- Source: `HttpSession.post(url, **kwargs)` —
alias for `request("POST", url, **kwargs)`. -/
def HttpSession.post (t : Transport) (st : HttpSession) (url : String)
    (auth : Option (List String) := none) (kwargs : List (String × String) := []) :
    HttpSession × Except PyErr HttpResponse :=
  st.request t "POST" url auth kwargs

/-- A client-visible operation on the session manager, for stating trace
invariants. -/
inductive SessionOp where
  | ensure : SessionOp
  | close : SessionOp
  | req (method url : String) (auth : Option (List String))
      (kwargs : List (String × String)) : SessionOp

/-- Effect of one operation on the manager state. -/
def HttpSession.stepOp (t : Transport) (st : HttpSession) : SessionOp → HttpSession
  | .ensure => st.ensure_session
  | .close => st.close
  | .req m u a k => (st.request t m u a k).1

/-- Run a sequence of operations from a state. -/
def HttpSession.runOps (t : Transport) (st : HttpSession) : List SessionOp → HttpSession
  | [] => st
  | op :: ops => HttpSession.runOps t (st.stepOp t op) ops

/-! ## General lemmas about the embedding -/

set_option maxRecDepth 100000 in
/-- On the three-digit codes `100 + k`, `k < 900`, the first decimal digit is
`2` exactly for the range 200–299 (finite check). -/
theorem ok_ball_three_digit : ∀ k : Nat, k < 900 →
    (HttpResponse.ok ⟨100 + (k : Int), []⟩ = true ↔
      200 ≤ 100 + (k : Int) ∧ 100 + (k : Int) ≤ 299) := by
  decide

/-- After `close`, the session handle is gone. -/
theorem close_session_eq_none (st : HttpSession) : st.close.session = none := by
  unfold HttpSession.close
  cases h : st.session <;> simp [h]

/-- Closing with no live session is the identity. -/
theorem close_noop_of_none {st : HttpSession} (h : st.session = none) : st.close = st := by
  simp [HttpSession.close, h]

/-- Ensuring always leaves a live session handle. -/
theorem ensure_session_isSome (st : HttpSession) :
    st.ensure_session.session.isSome = true := by
  unfold HttpSession.ensure_session
  cases h : st.session <;> simp [h]

/-- The state after `request` is exactly the state after `_ensure_session`:
the transport reply and the auth translation do not touch the session field. -/
theorem request_state_eq_ensure (t : Transport) (st : HttpSession) (m u : String)
    (a : Option (List String)) (k : List (String × String)) :
    (HttpSession.request t st m u a k).1 = st.ensure_session := by
  unfold HttpSession.request
  cases translateAuth a <;> rfl

/-- The ghost creation/closure counters record the presence of the handle:
this invariant is preserved by every operation sequence. -/
theorem runOps_counts (t : Transport) (ops : List SessionOp) :
    ∀ st : HttpSession,
      st.createdCount = st.closedCount + (if st.session.isSome then 1 else 0) →
      (HttpSession.runOps t st ops).createdCount =
        (HttpSession.runOps t st ops).closedCount +
          (if (HttpSession.runOps t st ops).session.isSome then 1 else 0) := by
  induction ops with
  | nil => intro st h; exact h
  | cons op ops ih =>
    intro st h
    rw [HttpSession.runOps]
    apply ih
    cases op with
    | ensure =>
      simp only [HttpSession.stepOp]
      obtain ⟨sess, cr, cl⟩ := st
      cases sess <;> simp [HttpSession.ensure_session] at h ⊢ <;> omega
    | close =>
      simp only [HttpSession.stepOp]
      obtain ⟨sess, cr, cl⟩ := st
      cases sess <;> simp [HttpSession.close] at h ⊢ <;> omega
    | req m u a k =>
      simp only [HttpSession.stepOp, request_state_eq_ensure]
      obtain ⟨sess, cr, cl⟩ := st
      cases sess <;> simp [HttpSession.ensure_session] at h ⊢ <;> omega

/-- Along any run from the initial state, at most one handle is live. -/
theorem runOps_live_le_one (t : Transport) (ops : List SessionOp) :
    (HttpSession.runOps t HttpSession.init ops).liveHandles ≤ 1 := by
  have h := runOps_counts t ops HttpSession.init (by simp [HttpSession.init])
  unfold HttpSession.liveHandles
  by_cases hi : (HttpSession.runOps t HttpSession.init ops).session.isSome = true
  · rw [if_pos hi] at h; omega
  · rw [if_neg hi] at h; omega

/-! ## UTF-8 codec lemmas -/

theorem char_toNat_valid (c : Char) :
    c.toNat < 55296 ∨ (57343 < c.toNat ∧ c.toNat < 1114112) := by
  rcases c.valid with h | ⟨h1, h2⟩
  · exact Or.inl (UInt32.toNat_lt_of_lt (by decide) h)
  · exact Or.inr ⟨UInt32.lt_toNat_of_lt (by decide) h1, UInt32.toNat_lt_of_lt (by decide) h2⟩

theorem char_toNat_ofNat {n : Nat} (h : n.isValidChar) : (Char.ofNat n).toNat = n := by
  rw [Char.ofNat, dif_pos h]
  rfl

theorem utf8DecodeList_encodeChar (c : Char) (bs : List Nat) :
    utf8DecodeList (utf8EncodeChar c ++ bs) = (utf8DecodeList bs).map (fun cs => c :: cs) := by
  have hv := char_toNat_valid c
  have hofNat := Char.ofNat_toNat c
  simp only [utf8EncodeChar]
  set n := c.toNat with hn
  by_cases h1 : n < 128
  · rw [if_pos h1]
    simp only [List.cons_append, List.nil_append]
    rw [utf8DecodeList.eq_2, if_pos h1, hofNat]
  · rw [if_neg h1]
    by_cases h2 : n < 2048
    · rw [if_pos h2]
      simp only [List.cons_append, List.nil_append]
      rw [utf8DecodeList.eq_2, if_neg (by omega), if_neg (by omega), if_pos (by omega),
        utf8DecodeTwo.eq_1, if_pos (by omega),
        show (192 + n / 64 - 192) * 64 + (128 + n % 64 - 128) = n from by omega, hofNat]
    · rw [if_neg h2]
      by_cases h3 : n < 65536
      · rw [if_pos h3]
        simp only [List.cons_append, List.nil_append]
        rw [utf8DecodeList.eq_2, if_neg (by omega), if_neg (by omega), if_neg (by omega),
          if_pos (by omega), utf8DecodeThree.eq_1]
        have hC : (if 224 + n / 4096 = 224 then
                     160 ≤ 128 + n / 64 % 64 ∧ 128 + n / 64 % 64 < 192
                   else if 224 + n / 4096 = 237 then
                     128 ≤ 128 + n / 64 % 64 ∧ 128 + n / 64 % 64 < 160
                   else 128 ≤ 128 + n / 64 % 64 ∧ 128 + n / 64 % 64 < 192) ∧
                  (128 ≤ 128 + n % 64 ∧ 128 + n % 64 < 192) := by
          refine ⟨?_, by omega⟩
          split_ifs <;> omega
        rw [if_pos hC,
          show (224 + n / 4096 - 224) * 4096 + (128 + n / 64 % 64 - 128) * 64 +
            (128 + n % 64 - 128) = n from by omega, hofNat]
      · rw [if_neg h3]
        have h4 : n < 1114112 := by omega
        simp only [List.cons_append, List.nil_append]
        rw [utf8DecodeList.eq_2, if_neg (by omega), if_neg (by omega), if_neg (by omega),
          if_neg (by omega), if_pos (by omega), utf8DecodeFour.eq_1]
        have hC : (if 240 + n / 262144 = 240 then
                     144 ≤ 128 + n / 4096 % 64 ∧ 128 + n / 4096 % 64 < 192
                   else if 240 + n / 262144 = 244 then
                     128 ≤ 128 + n / 4096 % 64 ∧ 128 + n / 4096 % 64 < 144
                   else 128 ≤ 128 + n / 4096 % 64 ∧ 128 + n / 4096 % 64 < 192) ∧
                  (128 ≤ 128 + n / 64 % 64 ∧ 128 + n / 64 % 64 < 192) ∧
                  (128 ≤ 128 + n % 64 ∧ 128 + n % 64 < 192) := by
          refine ⟨?_, by omega, by omega⟩
          split_ifs <;> omega
        rw [if_pos hC,
          show (240 + n / 262144 - 240) * 262144 + (128 + n / 4096 % 64 - 128) * 4096 +
            (128 + n / 64 % 64 - 128) * 64 + (128 + n % 64 - 128) = n from by omega, hofNat]

theorem utf8DecodeList_encodeList (cs : List Char) :
    utf8DecodeList (utf8EncodeList cs) = some cs := by
  induction cs with
  | nil => rfl
  | cons c cs ih =>
    simp only [utf8EncodeList]
    rw [utf8DecodeList_encodeChar, ih]
    rfl

theorem utf8DecodeList_inv_aux :
    ∀ (k : Nat) (bs : List Nat) (cs : List Char),
      bs.length ≤ k → utf8DecodeList bs = some cs → bs = utf8EncodeList cs := by
  intro k
  induction k with
  | zero =>
    intro bs cs hlen h
    have hbs : bs = [] := List.length_eq_zero.1 (Nat.le_zero.1 hlen)
    subst hbs
    injection h with h
    subst h
    rfl
  | succ k ih =>
    intro bs cs hlen h
    rcases bs with _ | ⟨b0, rest⟩
    · injection h with h
      subst h
      rfl
    · rw [utf8DecodeList.eq_2] at h
      by_cases h1 : b0 < 128
      · rw [if_pos h1] at h
        rcases Option.map_eq_some'.1 h with ⟨cs', hd, hcs⟩
        subst hcs
        have hlen' : rest.length ≤ k := by simp at hlen; omega
        have hrest := ih rest cs' hlen' hd
        have htn : (Char.ofNat b0).toNat = b0 := char_toNat_ofNat (Or.inl (by omega))
        have henc : utf8EncodeChar (Char.ofNat b0) = [b0] := by
          simp only [utf8EncodeChar, htn]
          rw [if_pos h1]
        simp only [utf8EncodeList, henc]
        rw [hrest]
        rfl
      · rw [if_neg h1] at h
        by_cases h2 : b0 < 194
        · rw [if_pos h2] at h
          exact absurd h (by simp)
        · rw [if_neg h2] at h
          by_cases h3 : b0 < 224
          · -- two-byte sequence
            rw [if_pos h3] at h
            rcases rest with _ | ⟨b1, rest2⟩
            · simp [utf8DecodeTwo] at h
            · rw [utf8DecodeTwo.eq_1] at h
              by_cases hb1 : 128 ≤ b1 ∧ b1 < 192
              · rw [if_pos hb1] at h
                rcases Option.map_eq_some'.1 h with ⟨cs', hd, hcs⟩
                subst hcs
                have hlen' : rest2.length ≤ k := by simp at hlen; omega
                have hrest := ih rest2 cs' hlen' hd
                set v := (b0 - 192) * 64 + (b1 - 128) with hveq
                have htn : (Char.ofNat v).toNat = v := char_toNat_ofNat (Or.inl (by omega))
                have henc : utf8EncodeChar (Char.ofNat v) = [b0, b1] := by
                  simp only [utf8EncodeChar, htn]
                  rw [if_neg (by omega), if_pos (by omega)]
                  simp only [List.cons.injEq, and_true]
                  omega
                simp only [utf8EncodeList, henc]
                rw [hrest]
                rfl
              · rw [if_neg hb1] at h
                exact absurd h (by simp)
          · rw [if_neg h3] at h
            by_cases h4 : b0 < 240
            · -- three-byte sequence
              rw [if_pos h4] at h
              rcases rest with _ | ⟨b1, _ | ⟨b2, rest3⟩⟩
              · simp [utf8DecodeThree] at h
              · simp [utf8DecodeThree] at h
              · rw [utf8DecodeThree.eq_1] at h
                by_cases hC : (if b0 = 224 then 160 ≤ b1 ∧ b1 < 192
                    else if b0 = 237 then 128 ≤ b1 ∧ b1 < 160
                    else 128 ≤ b1 ∧ b1 < 192) ∧ (128 ≤ b2 ∧ b2 < 192)
                · rw [if_pos hC] at h
                  rcases Option.map_eq_some'.1 h with ⟨cs', hd, hcs⟩
                  subst hcs
                  obtain ⟨hc1, hc2⟩ := hC
                  have hlen' : rest3.length ≤ k := by simp at hlen; omega
                  have hrest := ih rest3 cs' hlen' hd
                  set v := (b0 - 224) * 4096 + (b1 - 128) * 64 + (b2 - 128) with hveq
                  have hb1' : 128 ≤ b1 ∧ b1 < 192 := by split_ifs at hc1 <;> omega
                  have hlo : 2048 ≤ v := by split_ifs at hc1 <;> omega
                  have hval : Nat.isValidChar v := by
                    show v < 55296 ∨ (57343 < v ∧ v < 1114112)
                    split_ifs at hc1 <;> omega
                  have htn : (Char.ofNat v).toNat = v := char_toNat_ofNat hval
                  have henc : utf8EncodeChar (Char.ofNat v) = [b0, b1, b2] := by
                    simp only [utf8EncodeChar, htn]
                    rw [if_neg (by omega), if_neg (by omega), if_pos (by omega)]
                    simp only [List.cons.injEq, and_true]
                    omega
                  simp only [utf8EncodeList, henc]
                  rw [hrest]
                  rfl
                · rw [if_neg hC] at h
                  exact absurd h (by simp)
            · rw [if_neg h4] at h
              by_cases h5 : b0 < 245
              · -- four-byte sequence
                rw [if_pos h5] at h
                rcases rest with _ | ⟨b1, _ | ⟨b2, _ | ⟨b3, rest4⟩⟩⟩
                · simp [utf8DecodeFour] at h
                · simp [utf8DecodeFour] at h
                · simp [utf8DecodeFour] at h
                · rw [utf8DecodeFour.eq_1] at h
                  by_cases hC : (if b0 = 240 then 144 ≤ b1 ∧ b1 < 192
                      else if b0 = 244 then 128 ≤ b1 ∧ b1 < 144
                      else 128 ≤ b1 ∧ b1 < 192) ∧
                      (128 ≤ b2 ∧ b2 < 192) ∧ (128 ≤ b3 ∧ b3 < 192)
                  · rw [if_pos hC] at h
                    rcases Option.map_eq_some'.1 h with ⟨cs', hd, hcs⟩
                    subst hcs
                    obtain ⟨hc1, hc2, hc3⟩ := hC
                    have hlen' : rest4.length ≤ k := by simp at hlen; omega
                    have hrest := ih rest4 cs' hlen' hd
                    set v := (b0 - 240) * 262144 + (b1 - 128) * 4096 + (b2 - 128) * 64 +
                      (b3 - 128) with hveq
                    have hb1' : 128 ≤ b1 ∧ b1 < 192 := by split_ifs at hc1 <;> omega
                    have hlo : 65536 ≤ v := by split_ifs at hc1 <;> omega
                    have hhi : v < 1114112 := by split_ifs at hc1 <;> omega
                    have hval : Nat.isValidChar v := Or.inr ⟨by omega, hhi⟩
                    have htn : (Char.ofNat v).toNat = v := char_toNat_ofNat hval
                    have henc : utf8EncodeChar (Char.ofNat v) = [b0, b1, b2, b3] := by
                      simp only [utf8EncodeChar, htn]
                      rw [if_neg (by omega), if_neg (by omega), if_neg (by omega)]
                      simp only [List.cons.injEq, and_true]
                      omega
                    simp only [utf8EncodeList, henc]
                    rw [hrest]
                    rfl
                  · rw [if_neg hC] at h
                    exact absurd h (by simp)
              · rw [if_neg h5] at h
                exact absurd h (by simp)

theorem utf8DecodeList_inv {bs : List Nat} {cs : List Char}
    (h : utf8DecodeList bs = some cs) : bs = utf8EncodeList cs :=
  utf8DecodeList_inv_aux bs.length bs cs (Nat.le_refl _) h

/-- The fixed header starts with the XML-declaration magic, so prepending it
always satisfies the `startswith(b"<?xml")` test. -/
theorem xml_magic_prefixOf_header_append (data : List Nat) :
    List.isPrefixOf (asciiBytes "<?xml") (plist_header ++ data) = true := by
  rw [List.isPrefixOf_iff_prefix]
  have h : plist_header = asciiBytes "<?xml" ++ plist_header.drop 5 := by rfl
  rw [h, List.append_assoc]
  exact List.prefix_append _ _

/-- Every error of the modelled `plistlib.loads` is the parse error. -/
theorem plistlib_loads_error_eq_parse {data : List Nat} {e : PyErr}
    (h : plistlib_loads data = .error e) : e = .plistParseError := by
  simp only [plistlib_loads] at h
  repeat (any_goals (split at h))
  all_goals simp_all

/-- Every error of `decode_plist` is the parse error: the `TypeError` of
`HttpResponse.plist` can only come from its own dict check. -/
theorem decode_plist_error_eq_parse {data : List Nat} {e : PyErr}
    (h : decode_plist data = .error e) : e = .plistParseError := by
  simp only [decode_plist] at h
  exact plistlib_loads_error_eq_parse h

/-! ## Claim theorems -/

set_option maxRecDepth 100000 in
/-- C1, counterexample: the status code 2000 lies outside the inclusive range
200–299, yet `ok` is true for it, because the decimal representation of 2000
starts with the digit 2. -/
theorem ok_true_at_2000 :
    HttpResponse.ok ⟨2000, []⟩ = true ∧ ¬(200 ≤ (2000 : Int) ∧ (2000 : Int) ≤ 299) := by
  decide

/-- C1 (amended): `ok` is true iff the decimal string of the stored status
code starts with the digit `2`; restricted to three-digit status codes
(100–999, which covers every real HTTP status), this holds exactly for the
inclusive range 200–299. -/
theorem ok_iff_2xx_for_three_digit_codes :
    ∀ (code : Int) (body : List Nat), 100 ≤ code → code ≤ 999 →
      (HttpResponse.ok ⟨code, body⟩ = true ↔ 200 ≤ code ∧ code ≤ 299) := by
  intro code body h1 h2
  have hb : HttpResponse.ok ⟨code, body⟩ = HttpResponse.ok ⟨code, []⟩ := rfl
  have hk : code = 100 + ((code - 100).toNat : Int) := by omega
  rw [hb, hk]
  exact ok_ball_three_digit (code - 100).toNat (by omega)

/-- C1 witness: instance of the amended claim at status code 204. -/
theorem ok_iff_2xx_witness :
    HttpResponse.ok ⟨204, []⟩ = true ↔ 200 ≤ (204 : Int) ∧ (204 : Int) ≤ 299 :=
  ok_iff_2xx_for_three_digit_codes 204 [] (by decide) (by decide)

/-- C9: noninterference between the two fields of `HttpResponse` — the body
views `text` / `json` / `plist` depend only on the body bytes, and
`status_code` / `ok` depend only on the status code. -/
theorem response_noninterference :
    (∀ (s1 s2 : Int) (b : List Nat),
      HttpResponse.text ⟨s1, b⟩ = HttpResponse.text ⟨s2, b⟩ ∧
      HttpResponse.json ⟨s1, b⟩ = HttpResponse.json ⟨s2, b⟩ ∧
      HttpResponse.plist ⟨s1, b⟩ = HttpResponse.plist ⟨s2, b⟩) ∧
    (∀ (s : Int) (b1 b2 : List Nat),
      HttpResponse.ok ⟨s, b1⟩ = HttpResponse.ok ⟨s, b2⟩ ∧
      HttpResponse.status_code ⟨s, b1⟩ = HttpResponse.status_code ⟨s, b2⟩) :=
  ⟨fun _ _ _ => ⟨rfl, rfl, rfl⟩, fun _ _ _ => ⟨rfl, rfl⟩⟩

/-- C8: `get` and `post` are aliases of `request` with the method fixed to
`"GET"` and `"POST"` respectively, for every url, auth and keyword options. -/
theorem get_post_alias :
    ∀ (t : Transport) (st : HttpSession) (url : String) (auth : Option (List String))
      (kwargs : List (String × String)),
      HttpSession.get t st url auth kwargs = HttpSession.request t st "GET" url auth kwargs ∧
      HttpSession.post t st url auth kwargs = HttpSession.request t st "POST" url auth kwargs :=
  fun _ _ _ _ _ => ⟨rfl, rfl⟩

/-- C10: with a one-element auth tuple, `request` fails with `IndexError`
during auth translation, before the transport is consulted (the result does
not depend on the transport at all); with two or more elements it is
well-defined and uses the first two as the basic-auth credentials. -/
theorem request_auth_indexing :
    ∀ (t : Transport) (st : HttpSession) (method url u : String)
      (kwargs : List (String × String)),
      (HttpSession.request t st method url (some [u]) kwargs =
        (st.ensure_session, .error .indexError)) ∧
      (∀ t2 : Transport,
        HttpSession.request t2 st method url (some [u]) kwargs =
          HttpSession.request t st method url (some [u]) kwargs) ∧
      (∀ (p : String) (rest : List String),
        HttpSession.request t st method url (some (u :: p :: rest)) kwargs =
          (st.ensure_session,
           .ok { status_code := (t { method := method, url := url,
                                     auth := some { login := u, password := p },
                                     ssl := false, kwargs := kwargs }).1,
                 content := (t { method := method, url := url,
                                 auth := some { login := u, password := p },
                                 ssl := false, kwargs := kwargs }).2 })) :=
  fun _ _ _ _ _ _ => ⟨rfl, fun _ => rfl, fun _ _ => rfl⟩

/-- C7: `request` first ensures a session (created with total timeout 5 when
absent, untouched when present), calls the transport with TLS verification
disabled (`ssl := false`), passes no basic auth when `auth` is `None` and the
translated `(username, password)` pair otherwise, and wraps the transport's
status and fully read body in the response. -/
theorem request_behavior :
    ∀ (t : Transport) (st : HttpSession) (method url user pass : String)
      (kwargs : List (String × String)),
      (HttpSession.request t st method url (some [user, pass]) kwargs =
        (st.ensure_session,
         .ok { status_code := (t { method := method, url := url,
                                   auth := some { login := user, password := pass },
                                   ssl := false, kwargs := kwargs }).1,
               content := (t { method := method, url := url,
                               auth := some { login := user, password := pass },
                               ssl := false, kwargs := kwargs }).2 })) ∧
      (HttpSession.request t st method url none kwargs =
        (st.ensure_session,
         .ok { status_code := (t { method := method, url := url, auth := none,
                                   ssl := false, kwargs := kwargs }).1,
               content := (t { method := method, url := url, auth := none,
                               ssl := false, kwargs := kwargs }).2 })) ∧
      (st.session = none →
        st.ensure_session =
          { session := some { timeout := { total := 5 } },
            createdCount := st.createdCount + 1, closedCount := st.closedCount }) ∧
      (st.session.isSome = true → st.ensure_session = st) := by
  intro t st method url user pass kwargs
  refine ⟨rfl, rfl, ?_, ?_⟩
  · intro h
    simp [HttpSession.ensure_session, h]
  · intro h
    obtain ⟨v, hv⟩ := Option.isSome_iff_exists.1 h
    simp [HttpSession.ensure_session, hv]

/-- C7 witness: from the initial state, a request creates the session handle
with total timeout 5; once it exists, ensuring again is a no-op. -/
theorem request_behavior_witness :
    (HttpSession.init.ensure_session =
      { session := some { timeout := { total := 5 } }, createdCount := 1, closedCount := 0 }) ∧
    HttpSession.init.ensure_session.ensure_session.ensure_session =
      HttpSession.init.ensure_session.ensure_session :=
  ⟨(request_behavior (fun _ => (200, [])) HttpSession.init "GET" "u" "n" "p" []).2.2.1 rfl,
   (request_behavior (fun _ => (200, [])) HttpSession.init.ensure_session.ensure_session
      "GET" "u" "n" "p" []).2.2.2 rfl⟩

/-- C6: the session manager is the two-state machine — the initial state has
no session; `_ensure_session` and `request` always leave a live session;
`close` always leaves none, is the identity when no session exists (so a
second consecutive `close` is a no-op), and after `close` a `request`
transparently recreates a session; along any operation sequence from the
initial state at most one handle is live at a time. -/
theorem session_state_machine :
    (HttpSession.init.session = none) ∧
    (∀ st : HttpSession, st.session = none → st.ensure_session.session.isSome = true) ∧
    (∀ (t : Transport) (st : HttpSession) (m u : String) (a : Option (List String))
      (k : List (String × String)),
      (HttpSession.request t st m u a k).1.session.isSome = true) ∧
    (∀ st : HttpSession, st.close.session = none) ∧
    (∀ st : HttpSession, st.session = none → st.close = st) ∧
    (∀ st : HttpSession, st.close.close = st.close) ∧
    (∀ (t : Transport) (st : HttpSession) (m u : String) (a : Option (List String))
      (k : List (String × String)),
      (HttpSession.request t st.close m u a k).1.session.isSome = true) ∧
    (∀ (t : Transport) (ops : List SessionOp),
      (HttpSession.runOps t HttpSession.init ops).liveHandles ≤ 1) := by
  refine ⟨rfl, fun st _ => ensure_session_isSome st, fun t st m u a k => ?_,
    close_session_eq_none, fun st h => close_noop_of_none h, fun st => ?_,
    fun t st m u a k => ?_, runOps_live_le_one⟩
  · rw [request_state_eq_ensure]; exact ensure_session_isSome st
  · exact close_noop_of_none (close_session_eq_none st)
  · rw [request_state_eq_ensure]; exact ensure_session_isSome st.close

/-- C3: `decode_plist` branches on the `b"<?xml"` magic — a body that starts
with it is decoded unmodified by the plist decoder; any other body is decoded
with the fixed XML-declaration-plus-DOCTYPE header prepended, so a
headerless body decodes to exactly the same result as the same document with
the header already present. -/
theorem decode_plist_header_branch :
    ∀ data : List Nat,
      (List.isPrefixOf (asciiBytes "<?xml") data = true →
        decode_plist data = plistlib_loads data) ∧
      (List.isPrefixOf (asciiBytes "<?xml") data = false →
        decode_plist data = plistlib_loads (plist_header ++ data) ∧
        decode_plist data = decode_plist (plist_header ++ data)) := by
  intro data
  constructor
  · intro h
    simp [decode_plist, h]
  · intro h
    have hpre := xml_magic_prefixOf_header_append data
    constructor
    · simp [decode_plist, h]
    · simp [decode_plist, h, hpre]

/-- C3 witness: a concrete headerless `<plist>` fragment decodes to the same
mapping as the header-carrying document, and that decoding succeeds. -/
theorem decode_plist_header_branch_witness :
    (decode_plist (asciiBytes "<plist><dict><key>a</key><integer>1</integer></dict></plist>") =
      decode_plist (plist_header ++
        asciiBytes "<plist><dict><key>a</key><integer>1</integer></dict></plist>")) ∧
    decode_plist (asciiBytes "<plist><dict><key>a</key><integer>1</integer></dict></plist>") =
      Except.ok (PlistValue.dict [("a", PlistValue.integer 1)]) :=
  ⟨((decode_plist_header_branch
      (asciiBytes "<plist><dict><key>a</key><integer>1</integer></dict></plist>")).2
      (by rfl)).2,
   by rfl⟩

/-- C4: `HttpResponse.plist` raises `TypeError` exactly when the plist
decoder succeeds with a non-mapping top-level value; when the decoded value
is a mapping, it is returned unchanged. -/
theorem plist_typeError_iff_not_dict :
    ∀ (code : Int) (body : List Nat),
      (HttpResponse.plist ⟨code, body⟩ = .error .typeError ↔
        ∃ v, decode_plist body = .ok v ∧ v.isDict = false) ∧
      (∀ v, decode_plist body = .ok v → v.isDict = true →
        HttpResponse.plist ⟨code, body⟩ = .ok v) := by
  intro code body
  rcases hd : decode_plist body with e | v
  · have he := decode_plist_error_eq_parse hd
    subst he
    constructor
    · simp [HttpResponse.plist, hd]
    · intro v hv
      exact absurd hv (by simp)
  · constructor
    · by_cases hv : v.isDict = true
      · constructor
        · intro h
          simp [HttpResponse.plist, hd, hv] at h
        · rintro ⟨v2, hv2, hd2⟩
          injection hv2 with hv2
          subst hv2
          rw [hv] at hd2
          exact absurd hd2 (by simp)
      · constructor
        · intro _
          exact ⟨v, rfl, by simpa using hv⟩
        · intro _
          simp [HttpResponse.plist, hd, hv]
    · intro v2 hv2 hdict
      injection hv2 with hv2
      subst hv2
      simp [HttpResponse.plist, hd, hdict]

/-- C4 witness: a decoded top-level array yields the `TypeError`, and a
decoded top-level dict is returned without error. -/
theorem plist_typeError_witness :
    HttpResponse.plist ⟨200, asciiBytes "<plist><array></array></plist>"⟩ =
      Except.error PyErr.typeError ∧
    HttpResponse.plist ⟨200, asciiBytes "<plist><dict></dict></plist>"⟩ =
      Except.ok (PlistValue.dict []) :=
  ⟨(plist_typeError_iff_not_dict 200 (asciiBytes "<plist><array></array></plist>")).1.mpr
      ⟨PlistValue.array [], by rfl, rfl⟩,
   (plist_typeError_iff_not_dict 200 (asciiBytes "<plist><dict></dict></plist>")).2
      (PlistValue.dict []) (by rfl) rfl⟩

/-- C2, counterexample: on the body `b"[]"` the decoded top-level value is an
array, not a mapping, and `json()` returns it successfully instead of failing
with a parse error. -/
theorem json_ok_on_top_level_array :
    HttpResponse.json ⟨200, asciiBytes "[]"⟩ = Except.ok (Json.arr []) := by
  rfl

/-- C2 (amended): `json()` JSON-decodes the UTF-8 text of the body and
returns whatever top-level value the decoder produces — the mapping
`{"a": 1}` for body `b"{"a":1}"`, a parse error for malformed JSON such as
`b"{"`, and a non-mapping value such as the array for `b"[1]"` without any
error. -/
theorem json_parses_text :
    (∀ (code : Int) (body : List Nat),
      HttpResponse.json ⟨code, body⟩ = (HttpResponse.text ⟨code, body⟩).bind jsonLoads) ∧
    HttpResponse.json ⟨200, asciiBytes "\x7b\"a\":1\x7d"⟩ =
      Except.ok (Json.obj [("a", Json.num 1)]) ∧
    HttpResponse.json ⟨200, asciiBytes "\x7b"⟩ = Except.error PyErr.jsonDecodeError ∧
    HttpResponse.json ⟨200, asciiBytes "[1]"⟩ = Except.ok (Json.arr [Json.num 1]) :=
  ⟨fun _ _ => rfl, by rfl, by rfl, by rfl⟩

/-- C6 witness: instances of the hypothesis-guarded parts at the initial
state — ensuring from the fresh manager yields a live session, and closing
the fresh manager (which has none) is a no-op. -/
theorem session_state_machine_witness :
    HttpSession.init.ensure_session.session.isSome = true ∧
    HttpSession.init.close = HttpSession.init :=
  ⟨session_state_machine.2.1 HttpSession.init rfl,
   session_state_machine.2.2.2.2.1 HttpSession.init rfl⟩

/-- C5: `text()` round-trips UTF-8 — wrapping the UTF-8 encoding of any
string and calling `text()` yields the string back — and on any byte
sequence that is not the UTF-8 encoding of some string, `text()` fails with
the decoding error (every successful decode exhibits its input as a valid
encoding). -/
theorem text_utf8_roundtrip_and_strict :
    (∀ (s : String) (code : Int),
      HttpResponse.text ⟨code, utf8Encode s⟩ = .ok s) ∧
    (∀ (bs : List Nat) (code : Int),
      (∃ s : String, utf8Encode s = bs ∧ HttpResponse.text ⟨code, bs⟩ = .ok s) ∨
      HttpResponse.text ⟨code, bs⟩ = .error .unicodeDecodeError) := by
  constructor
  · intro s code
    simp only [HttpResponse.text, utf8Encode]
    rw [utf8DecodeList_encodeList]
  · intro bs code
    rcases hdec : utf8DecodeList bs with _ | cs
    · right
      simp [HttpResponse.text, hdec]
    · left
      refine ⟨⟨cs⟩, ?_, ?_⟩
      · exact (utf8DecodeList_inv hdec).symm
      · simp [HttpResponse.text, hdec]
